import Mathlib

/-!
Verification of the pacsman PACS client against its specification.

The Python sources are embedded shallowly: pure helpers become Lean
functions, generator pipelines become functions from the finite response
list to the produced values together with an optional failure code, and
code that can raise returns an Except value.  Machine status codes are
plain naturals.
-/

namespace Pacsman

/-- The status codes the client treats as success or pending
(module constant status_success_or_pending in pynetdicom_client.py):
0x0000 is Success, 0xFF00 and 0xFF01 are Pending. -/
def status_success_or_pending : List Nat := [0x0000, 0xFF00, 0xFF01]

/-- Shallow embedding of the generator checked_responses in
pynetdicom_client.py.  It walks the (status, dataset) pairs in arrival
order, yields each dataset whose status is success-or-pending, and at
the first entry with any other status stops and raises, carrying that
numeric code.  The first component is the list of yielded datasets, the
second the failure code when one was hit. -/
def checked_responses {α : Type} : List (Nat × α) → List α × Option Nat
  | [] => ([], none)
  | (status, dataset) :: rest =>
    if status ∈ status_success_or_pending then
      let r := checked_responses rest
      (dataset :: r.1, r.2)
    else
      ([], some status)

/-- A STUDY-level response dataset as the client reads it: every
attribute the code accesses may be absent (Python hasattr/getattr), and
extra holds any caller-requested additional attributes. -/
structure StudyDataset where
  PatientID : Option String
  PatientName : Option String
  PatientBirthDate : Option String
  StudyDate : Option String
  StudyInstanceUID : Option String
  extra : List (String × String)
deriving DecidableEq, Repr

/-- The empty dataset some archives send as a trailing Success response
at the end of a list: it carries no attributes at all. -/
def emptyStudy : StudyDataset :=
  { PatientID := none, PatientName := none, PatientBirthDate := none,
    StudyDate := none, StudyInstanceUID := none, extra := [] }

/-- The response-consuming loop of PynetdicomClient.studies_for_patient:
datasets coming out of checked_responses are appended only when they
carry a PatientID attribute, because some PACS send back an empty
Success dataset at the end of the list.  A failure status mid-stream
propagates the exception and discards the partial output. -/
def studies_for_patient_results (responses : List (Nat × StudyDataset)) :
    Except Nat (List StudyDataset) :=
  match checked_responses responses with
  | (_, some code) => .error code
  | (datasets, none) => .ok (datasets.filter fun ds => ds.PatientID.isSome)

/-! The association context manager and verify. -/

/-- The state of the association object ae.associate returns, read from
its is_established / is_rejected / is_aborted flags; otherFailure is the
fall-through else branch (for example an unreachable peer). -/
inductive AssocState where
  | established
  | rejected
  | aborted
  | otherFailure
deriving DecidableEq, Repr

/-- Python exceptions the embedded code can raise. -/
inductive PyError where
  | connectionError (msg : String)
  | bodyError (msg : String)
  | releaseError (msg : String)
  | nameError
deriving DecidableEq, Repr

/-- Shallow embedding of the association context manager in
pynetdicom_client.py.  Inputs: associateResult is what ae.associate
does (raise, or return an association object in one of the four
states); releaseResult is what assoc.release() does in the finally
block (none = succeeds, some e = raises e); body is what the
with-block body does when handed an established session.  Output: the
overall result of the scoped block, paired with how many times
assoc.release() was invoked.  Per Python try/finally semantics an
exception raised in the finally block replaces any pending exception;
and in the path where ae.associate itself raises, the finally block
evaluates assoc.release() on an unbound local name, so a NameError
replaces the original exception and release is never invoked. -/
def association_run {α : Type} (associateResult : Except PyError AssocState)
    (releaseResult : Option PyError) (body : Except PyError α) :
    Except PyError α × Nat :=
  match associateResult with
  | .error _ => (.error .nameError, 0)
  | .ok st =>
    let inner : Except PyError α :=
      match st with
      | .established => body
      | .rejected => .error (.connectionError "Association rejected")
      | .aborted => .error (.connectionError "Received A-ABORT during association")
      | .otherFailure => .error (.connectionError "Failed to establish association")
    match releaseResult with
    | some e => (.error e, 1)
    | none => (inner, 1)

/-- Shallow embedding of PynetdicomClient.verify: inside an association
scope it sends one C-ECHO and returns true when the response status is
in the success-or-pending list, false otherwise.  The echo status and
the associate and release outcomes are parameters. -/
def verify (associateResult : Except PyError AssocState)
    (releaseResult : Option PyError) (echoStatus : Nat) : Except PyError Bool :=
  (association_run associateResult releaseResult
    (.ok (decide (echoStatus ∈ status_success_or_pending)))).1

/-! The record aggregator: DicomInterface.build_patient_result. -/

/-- The private-identifier constant PRIVATE_ID in dicom_interface.py. -/
def PRIVATE_ID : String := "pacsman"

/-- The aggregated patient-level result dataset built by
build_patient_result, with the attributes the code assigns; extra holds
the caller-requested additional attributes copied in. -/
structure PatientResult where
  PatientID : String
  PatientName : String
  PatientBirthDate : String
  PatientStudyIDs : List String
  PacsmanPrivateIdentifier : String
  PatientMostRecentStudyDate : String
  extra : List (String × String)
deriving DecidableEq, Repr

/-- Modelled from the spec: getattr_required lives in utils.py, which is
not among these sources.  As build_patient_result uses it, it returns
the named attribute's value and raises when the dataset lacks it, so a
response missing an identity attribute surfaces as an error rather than
being silently patched. -/
def getattr_required (v : Option String) (name : String) : Except String String :=
  match v with
  | some s => Except.ok s
  | none => Except.error (name ++ " not found in dataset")

/-- Modelled from the spec: copy_dicom_attributes lives in utils.py,
which is not among these sources.  It copies each caller-requested
additional attribute present on the source dataset onto the target. -/
def copy_dicom_attributes (target : List (String × String))
    (source : List (String × String)) (additional_tags : Option (List String)) :
    List (String × String) :=
  match additional_tags with
  | none => target
  | some ts => target ++ source.filter (fun p => p.1 ∈ ts)

/-- The first branch of build_patient_result (len(result) == 0): seed
the patient result from the study's patient attributes, with the study
id as sole member of the study-id list and the study date as initial
most-recent date. -/
def seed_patient_result (patient_id study_instance_uid : String)
    (ds : StudyDataset) (additional_tags : Option (List String)) : PatientResult :=
  { PatientID := patient_id
    PatientName := ds.PatientName.getD ""
    PatientBirthDate := ds.PatientBirthDate.getD ""
    PatientStudyIDs := [study_instance_uid]
    PacsmanPrivateIdentifier := PRIVATE_ID
    PatientMostRecentStudyDate := ds.StudyDate.getD ""
    extra := copy_dicom_attributes [] ds.extra additional_tags }

/-- The else branch of build_patient_result: append the study id only
when it is not already present. -/
def append_study_id (r : PatientResult) (study_instance_uid : String) : PatientResult :=
  if study_instance_uid ∈ r.PatientStudyIDs then r
  else { r with PatientStudyIDs := r.PatientStudyIDs ++ [study_instance_uid] }

/-- The trailing date update of build_patient_result: a non-empty study
date replaces the current most-recent date when no prior date exists or
when it is strictly greater (Python string comparison, lexicographic by
code point, matching the String order here). -/
def update_most_recent_date (r : PatientResult) (ds : StudyDataset) : PatientResult :=
  let study_date := ds.StudyDate.getD ""
  if study_date ≠ "" then
    if r.PatientMostRecentStudyDate = "" ∨ r.PatientMostRecentStudyDate < study_date then
      { r with PatientMostRecentStudyDate := study_date }
    else r
  else r

/-- Shallow embedding of DicomInterface.build_patient_result.  The
mutable pydicom result Dataset becomes explicit state: none stands for
the empty defaultdict entry (len(result) == 0) and the function returns
the updated result.  Raised exceptions become the error case. -/
def build_patient_result (result : Option PatientResult) (ds : StudyDataset)
    (additional_tags : Option (List String)) : Except String PatientResult := do
  let patient_id ← getattr_required ds.PatientID "PatientID"
  let study_instance_uid ← getattr_required ds.StudyInstanceUID "StudyInstanceUID"
  match result with
  | none =>
      pure (update_most_recent_date
        (seed_patient_result patient_id study_instance_uid ds additional_tags) ds)
  | some r0 =>
      if r0.PatientID ≠ patient_id then
        Except.error "The search result has a different patient ID"
      else
        pure (update_most_recent_date (append_study_id r0 study_instance_uid) ds)

/-- The per-patient fold performed by search_patients: the defaultdict
entry starts as an empty Dataset (none here) and each STUDY-level
response for the patient is folded in through build_patient_result. -/
def aggregate_patient (additional_tags : Option (List String))
    (l : List StudyDataset) : Except String (Option PatientResult) :=
  l.foldlM
    (fun acc ds => (build_patient_result acc ds additional_tags).map some)
    none

/-- The study date the aggregator reads off a response dataset. -/
def study_date_of (ds : StudyDataset) : String := ds.StudyDate.getD ""

/-- The lexicographically greatest study date in a response list, the
empty string when every date is empty or the list is empty. -/
def max_study_date (l : List StudyDataset) : String :=
  l.foldl (fun acc ds => max acc (study_date_of ds)) ""

/-! Series- and image-level operations. -/

/-- Further Python exceptions raised by the series and image paths:
a protocol failure carrying the status code, and an attribute error
from a direct access to a missing dataset attribute. -/
inductive PyError2 where
  | protocolFailure (code : Nat)
  | attributeError (name : String)
deriving DecidableEq, Repr

/-- An IMAGE-level response dataset as the client reads it. -/
structure ImageDataset where
  SeriesInstanceUID : Option String
  SOPInstanceUID : Option String
  extra : List (String × String)
deriving DecidableEq, Repr

/-- A SERIES-level response dataset as the client reads it, with the
attributes series_for_study touches. -/
structure SeriesDataset where
  SeriesInstanceUID : Option String
  SeriesDescription : Option String
  BodyPartExamined : Option String
  Modality : Option String
  SeriesDate : Option String
  SeriesTime : Option String
  PatientPosition : Option String
  NumberOfSeriesRelatedInstances : Option String
  extra : List (String × String)
deriving DecidableEq, Repr

/-- PynetdicomClient._count_images_via_query without its network shell:
inside a fresh association it queries the images of the series and
counts the responses carrying a SOPInstanceUID; a failure status
mid-stream raises with the code. -/
def count_images_via_query (series_responses : List (Nat × ImageDataset)) :
    Except Nat Nat :=
  match checked_responses series_responses with
  | (_, some code) => .error code
  | (datasets, none) => .ok (datasets.countP (fun i => i.SOPInstanceUID.isSome))

/-- PynetdicomClient._determine_number_of_images: the archive-reported
NumberOfSeriesRelatedInstances is read directly (raising when absent)
and used when truthy (non-empty); otherwise the count comes from the
secondary image-level query, whose responses are a parameter. -/
def determine_number_of_images (series : SeriesDataset)
    (series_responses : List (Nat × ImageDataset)) : Except PyError2 String :=
  match series.NumberOfSeriesRelatedInstances with
  | none => .error (.attributeError "NumberOfSeriesRelatedInstances")
  | some answer_from_instance_count =>
    if answer_from_instance_count ≠ "" then
      .ok answer_from_instance_count
    else
      match count_images_via_query series_responses with
      | .error code => .error (.protocolFailure code)
      | .ok image_count => .ok (toString image_count)

/-- The per-response record construction of series_for_study for a kept
series: SeriesDescription defaults to the empty string, BodyPartExamined
defaults to None, SeriesInstanceUID is guarded by the validity check,
and Modality, SeriesDate and SeriesTime are read directly, raising when
absent.  The named series attributes are set explicitly here;
copy_dicom_attributes handles only the caller's extra attributes. -/
def build_series_result (series : SeriesDataset) (additional_tags : List String)
    (number : String) : Except PyError2 SeriesDataset :=
  match series.SeriesInstanceUID with
  | none => .error (.attributeError "SeriesInstanceUID")
  | some uid =>
    match series.Modality with
    | none => .error (.attributeError "Modality")
    | some modality =>
      match series.SeriesDate with
      | none => .error (.attributeError "SeriesDate")
      | some series_date =>
        match series.SeriesTime with
        | none => .error (.attributeError "SeriesTime")
        | some series_time =>
          .ok { SeriesInstanceUID := some uid
                SeriesDescription := some (series.SeriesDescription.getD "")
                BodyPartExamined := series.BodyPartExamined
                Modality := some modality
                SeriesDate := some series_date
                SeriesTime := some series_time
                PatientPosition := none
                NumberOfSeriesRelatedInstances := some number
                extra := copy_dicom_attributes [] series.extra (some additional_tags) }

/-- The keep test of the series_for_study loop: the response must carry
a SeriesInstanceUID, and its modality (getattr with empty default) must
be in the filter unless no filter was given. -/
def series_keep (modality_filter : Option (List String)) (series : SeriesDataset) : Bool :=
  series.SeriesInstanceUID.isSome &&
    (match modality_filter with
     | none => true
     | some f => (series.Modality.getD "") ∈ f)

/-- The response-consuming loop of PynetdicomClient.series_for_study:
run the SERIES-level C-FIND responses through checked_responses, keep
each valid response whose modality passes the filter, build its result
record and attach the determined instance count.  The secondary
image-level responses for each series are provided by the environment
secondary. -/
def series_for_study_results (modality_filter : Option (List String))
    (additional_tags : List String)
    (secondary : SeriesDataset → List (Nat × ImageDataset))
    (responses : List (Nat × SeriesDataset)) : Except PyError2 (List SeriesDataset) :=
  match checked_responses responses with
  | (_, some code) => .error (.protocolFailure code)
  | (series_list, none) =>
    series_list.foldlM
      (fun acc series =>
        if series_keep modality_filter series then do
          let number ← determine_number_of_images series (secondary series)
          let ds ← build_series_result series additional_tags number
          pure (acc ++ [ds])
        else
          pure acc)
      []

/-- Python truthiness of the max_count argument of images_for_series:
None and 0 are falsy, every other count is truthy. -/
def max_count_truthy : Option Nat → Bool
  | none => false
  | some n => n != 0

/-- The image-collecting loop of PynetdicomClient.images_for_series.
The response generator is consumed lazily, so breaking out on reaching
max_count stops the iteration and later entries, including failures,
are never examined; hence the fused loop.  A kept response must carry
SOPInstanceUID (hasattr guard); SeriesInstanceUID is then read directly
and raises when absent. -/
def images_for_series_loop (max_count : Option Nat)
    (additional_tags : Option (List String)) (acc : List ImageDataset) :
    List (Nat × ImageDataset) → Except PyError2 (List ImageDataset)
  | [] => .ok acc
  | (status, inst) :: rest =>
    if status ∈ status_success_or_pending then
      match inst.SOPInstanceUID with
      | none => images_for_series_loop max_count additional_tags acc rest
      | some iid =>
        match inst.SeriesInstanceUID with
        | none => .error (.attributeError "SeriesInstanceUID")
        | some sid =>
          let ds : ImageDataset :=
            { SeriesInstanceUID := some sid
              SOPInstanceUID := some iid
              extra := copy_dicom_attributes [] inst.extra additional_tags }
          let acc2 := acc ++ [ds]
          if max_count_truthy max_count ∧ acc2.length ≥ max_count.getD 0 then
            .ok acc2
          else
            images_for_series_loop max_count additional_tags acc2 rest
    else
      .error (.protocolFailure status)

/-- PynetdicomClient.images_for_series on its response stream: the loop
above started from the empty list. -/
def images_for_series_run (max_count : Option Nat)
    (additional_tags : Option (List String))
    (responses : List (Nat × ImageDataset)) : Except PyError2 (List ImageDataset) :=
  images_for_series_loop max_count additional_tags [] responses

/-- The image-id selection phase of PynetdicomClient.fetch_thumbnail:
collect the SOPInstanceUID of every C-FIND response carrying one, in
arrival order; none when the list is empty, else the id at index
length / 2 of the arrival-order list, which the code does not sort.
A failure status mid-stream raises with its code. -/
def fetch_thumbnail_selection (find_response : List (Nat × ImageDataset)) :
    Except Nat (Option String) :=
  match checked_responses find_response with
  | (_, some code) => .error code
  | (datasets, none) =>
    let image_ids := datasets.filterMap (fun ds => ds.SOPInstanceUID)
    if image_ids.isEmpty then
      .ok none
    else
      .ok (some (image_ids.getD (image_ids.length / 2) ""))

/-- A dataset of the filesystem development client as its
fetch_thumbnail uses it: the file path it was loaded from and its
series and image identifiers. -/
structure FsDataset where
  path : String
  SeriesInstanceUID : String
  SOPInstanceUID : String
deriving DecidableEq, Repr

/-- The selection phase of FilesystemDicomClient.fetch_thumbnail: the
stored datasets whose series matches are sorted by SOPInstanceUID
(Python sorted: a stable ascending sort by key) and the file at index
length / 2 of the sorted list is the thumbnail source; none when no
dataset matches. -/
def fs_fetch_thumbnail_selection (dicom_datasets : List FsDataset)
    (series_id : String) : Option String :=
  let series_items := dicom_datasets.filter (fun t => t.SeriesInstanceUID == series_id)
  if series_items.isEmpty then
    none
  else
    let sorted_items :=
      series_items.mergeSort (fun a b => decide (a.SOPInstanceUID ≤ b.SOPInstanceUID))
    some (sorted_items.getD (sorted_items.length / 2) ⟨"", "", ""⟩).path

/-! The argument mutations of search_series. -/

/-- Modelled from the spec: set_undefined_tags_to_blank lives in
utils.py, which is not among these sources.  Per the spec the query
must carry every requested attribute, so each tag in the list that the
dataset does not yet define is set to the blank string on the caller's
dataset.  Datasets are attribute assignment lists here. -/
def set_undefined_tags_to_blank (ds : List (String × String)) (tags : List String) :
    List (String × String) :=
  ds ++ (tags.filter (fun t => ds.all (fun p => p.1 != t))).map (fun t => (t, ""))

/-- Attribute assignment on a dataset: overwrite any existing entry of
that name. -/
def set_attr (ds : List (String × String)) (name value : String) :
    List (String × String) :=
  (ds.filter (fun p => p.1 != name)) ++ [(name, value)]

/-- The six series-level tag names search_series appends to the
additional-tags list. -/
def series_level_tags : List String :=
  ["Modality", "BodyPartExamined", "SeriesDescription", "SeriesDate", "SeriesTime",
   "PatientPosition"]

/-- The argument-mutating prefix of PynetdicomClient.search_series, as
it acts on the two caller-supplied objects.  Python rebinding: the
expression additional_tags or a fresh empty list rebinds the local name
when the caller passed None or an empty (falsy) list, so only a
non-empty caller list is extended in place by the six series-level tag
names.  query_dataset is always mutated: QueryRetrieveLevel is set to
INSTANCE and every tag of the effective tag list not yet defined is
blanked.  Returns the caller's two objects as they stand after the
call (the tags component is none when the caller passed None). -/
def search_series_mutations (query_dataset : List (String × String))
    (additional_tags : Option (List String)) :
    List (String × String) × Option (List String) :=
  let effective :=
    (match additional_tags with
     | none => []
     | some l => if l.isEmpty then [] else l) ++ series_level_tags
  let ds1 := set_attr query_dataset "QueryRetrieveLevel" "INSTANCE"
  let ds2 := set_undefined_tags_to_blank ds1 effective
  let tags_after :=
    match additional_tags with
    | none => none
    | some l => if l.isEmpty then some l else some (l ++ series_level_tags)
  (ds2, tags_after)

/-- The claim's thumbnail selection rule stated in the spec's words,
for comparison with the code: the image id at index floor(count/2) of
the id-sorted image-id list (the String order is total, transitive and
antisymmetric, so every sort produces this same list). -/
def spec_sorted_midpoint (image_ids : List String) : Option String :=
  if image_ids.isEmpty then
    none
  else
    let sorted_ids := List.insertionSort (· ≤ ·) image_ids
    some (sorted_ids.getD (sorted_ids.length / 2) "")

/-- A concrete IMAGE-level response carrying one image id, used as test
input. -/
def imageRec (iid : String) : ImageDataset :=
  { SeriesInstanceUID := none, SOPInstanceUID := some iid, extra := [] }

/-- A concrete IMAGE-level response carrying both identifiers, used as
test input. -/
def imageRecFull (sid iid : String) : ImageDataset :=
  { SeriesInstanceUID := some sid, SOPInstanceUID := some iid, extra := [] }

/-- A concrete well-formed SERIES-level response, used as test input. -/
def seriesRec (uid modality : String) : SeriesDataset :=
  { SeriesInstanceUID := some uid, SeriesDescription := none, BodyPartExamined := none,
    Modality := some modality, SeriesDate := some "20180101",
    SeriesTime := some "000000", PatientPosition := none,
    NumberOfSeriesRelatedInstances := some "5", extra := [] }

/-- A concrete well-formed STUDY-level response for one patient, used
as test input. -/
def studyRec (uid date : String) : StudyDataset :=
  { PatientID := some "PAT001", PatientName := some "Jane Smith",
    PatientBirthDate := none, StudyDate := some date,
    StudyInstanceUID := some uid, extra := [] }

/-! Theorems. -/

/-- On a stream whose statuses are all success-or-pending, the checker
yields every payload in arrival order and records no failure. -/
theorem checked_responses_all_good {α : Type} (l : List (Nat × α))
    (h : ∀ p ∈ l, p.1 ∈ status_success_or_pending) :
    checked_responses l = (l.map Prod.snd, none) := by
  induction l with
  | nil => rfl
  | cons p rest ih =>
    have hp : p.1 ∈ status_success_or_pending := h p (List.mem_cons_self p rest)
    have hrest : ∀ q ∈ rest, q.1 ∈ status_success_or_pending := fun q hq =>
      h q (List.mem_cons_of_mem p hq)
    show checked_responses ((p.1, p.2) :: rest) = _
    simp only [checked_responses, if_pos hp, ih hrest, List.map_cons]

/-- On a stream whose first failure sits after a success-or-pending
prefix, the checker yields exactly the prefix payloads and records the
failure code, never looking past it. -/
theorem checked_responses_first_failure {α : Type} (pre post : List (Nat × α))
    (c : Nat) (d : α)
    (hpre : ∀ p ∈ pre, p.1 ∈ status_success_or_pending)
    (hc : c ∉ status_success_or_pending) :
    checked_responses (pre ++ (c, d) :: post) = (pre.map Prod.snd, some c) := by
  induction pre with
  | nil =>
    simp only [List.nil_append, List.map_nil, checked_responses]
    rw [if_neg hc]
  | cons p rest ih =>
    have hp : p.1 ∈ status_success_or_pending := hpre p (List.mem_cons_self p rest)
    have hrest : ∀ q ∈ rest, q.1 ∈ status_success_or_pending := fun q hq =>
      hpre q (List.mem_cons_of_mem p hq)
    show checked_responses ((p.1, p.2) :: (rest ++ (c, d) :: post)) = _
    simp only [checked_responses, if_pos hp, ih hrest, List.map_cons]

/-- C1: checked_responses yields the payload of every entry whose status
is in the success-or-pending set, in arrival order, and on the first
entry with any other status it raises carrying that code, having yielded
exactly the payloads of the entries before it. -/
theorem checked_responses_correct {α : Type} (pre post : List (Nat × α)) (c : Nat) (d : α)
    (hpre : ∀ p ∈ pre, p.1 ∈ status_success_or_pending)
    (hc : c ∉ status_success_or_pending) :
    checked_responses pre = (pre.map Prod.snd, none) ∧
    checked_responses (pre ++ (c, d) :: post) = (pre.map Prod.snd, some c) :=
  ⟨checked_responses_all_good pre hpre,
   checked_responses_first_failure pre post c d hpre hc⟩

/-- Witness for checked_responses_correct at a concrete stream: two good
entries followed by a failure with code 0xC000. -/
theorem checked_responses_correct_witness :
    checked_responses [((0x0000 : Nat), "a"), (0xFF00, "b")] = (["a", "b"], none) ∧
    checked_responses [((0x0000 : Nat), "a"), (0xFF00, "b"), (0xC000, "c"), (0x0000, "d")] =
      (["a", "b"], some 0xC000) :=
  checked_responses_correct [(0x0000, "a"), (0xFF00, "b")] [(0x0000, "d")] 0xC000 "c"
    (by decide) (by decide)

/-- C3 counterexample: checked_responses itself does not drop a trailing
Success entry with an empty payload; it yields it.  For the one-entry
stream holding only the empty trailing Success dataset, the yielded
count is 1 while the number of non-empty entries is 0. -/
theorem checked_responses_yields_trailing_empty :
    checked_responses [((0x0000 : Nat), emptyStudy)] = ([emptyStudy], none) ∧
    emptyStudy.PatientID = none := by
  constructor
  · simp [checked_responses, status_success_or_pending, emptyStudy]
  · rfl

/-- C3 amended: the trailing empty Success dataset is dropped not by
checked_responses but by its caller studies_for_patient, which keeps
only datasets carrying a PatientID attribute; on an all-good stream its
result count therefore equals the number of entries whose payload has a
PatientID. -/
theorem studies_for_patient_drops_empty (responses : List (Nat × StudyDataset))
    (hall : ∀ p ∈ responses, p.1 ∈ status_success_or_pending) :
    ∃ l, studies_for_patient_results responses = .ok l ∧
      l.length = responses.countP (fun p => p.2.PatientID.isSome) := by
  have h := checked_responses_all_good responses hall
  refine ⟨(responses.map Prod.snd).filter (fun ds => ds.PatientID.isSome), ?_, ?_⟩
  · simp only [studies_for_patient_results, h]
  · rw [← List.countP_eq_length_filter, List.countP_map]
    rfl

/-- Witness for studies_for_patient_drops_empty: a Pending entry with a
PatientID followed by the empty trailing Success gives one result. -/
theorem studies_for_patient_drops_empty_witness :
    ∃ l, studies_for_patient_results
        [((0xFF00 : Nat), { emptyStudy with PatientID := some "PAT001" }), (0x0000, emptyStudy)] =
        .ok l ∧
      l.length = List.countP (fun p => p.2.PatientID.isSome)
        [((0xFF00 : Nat), { emptyStudy with PatientID := some "PAT001" }), (0x0000, emptyStudy)] :=
  studies_for_patient_drops_empty
    [(0xFF00, { emptyStudy with PatientID := some "PAT001" }), (0x0000, emptyStudy)]
    (by decide)

/-- C4 counterexample: when the with-block body raises and the release
in the finally block also raises, the release failure is re-raised over
the pending body error (it is not logged and suppressed), so the caller
sees the release error, not the body error. -/
theorem association_release_masks_pending :
    association_run (α := Unit) (.ok .established)
        (some (.releaseError "release failed")) (.error (.bodyError "body failed")) =
      (.error (.releaseError "release failed"), 1) := rfl

/-- C4 amended: on every exit path where ae.associate returns an
association object (body completing normally, body raising, or the
rejected / aborted / other establishment-failure branches raising
ConnectionError), release is invoked exactly once as the scope exits;
when release succeeds the block's own outcome propagates, but a failure
of release itself propagates to the caller, replacing any pending
error. -/
theorem association_release_exactly_once {α : Type} (st : AssocState)
    (releaseResult : Option PyError) (body : Except PyError α) :
    (association_run (.ok st) releaseResult body).2 = 1 ∧
    (releaseResult = none → st = .established →
      (association_run (.ok st) releaseResult body).1 = body) ∧
    (releaseResult = none → st ≠ .established →
      ∃ msg, (association_run (.ok st) releaseResult body).1 =
        .error (.connectionError msg)) ∧
    (∀ e, releaseResult = some e →
      (association_run (.ok st) releaseResult body).1 = .error e) := by
  refine ⟨?_, ?_, ?_, ?_⟩
  · cases releaseResult <;> rfl
  · rintro rfl rfl
    rfl
  · rintro rfl hst
    cases st with
    | established => exact absurd rfl hst
    | rejected => exact ⟨"Association rejected", rfl⟩
    | aborted => exact ⟨"Received A-ABORT during association", rfl⟩
    | otherFailure => exact ⟨"Failed to establish association", rfl⟩
  · rintro e rfl
    rfl

/-- Witness for association_release_exactly_once: an aborted
establishment with a succeeding release. -/
theorem association_release_exactly_once_witness :
    (association_run (α := Unit) (.ok .aborted) none (.ok ())).2 = 1 ∧
    (none = (none : Option PyError) → AssocState.aborted = .established →
      (association_run (α := Unit) (.ok .aborted) none (.ok ())).1 = .ok ()) ∧
    (none = (none : Option PyError) → AssocState.aborted ≠ .established →
      ∃ msg, (association_run (α := Unit) (.ok .aborted) none (.ok ())).1 =
        .error (.connectionError msg)) ∧
    (∀ e, (none : Option PyError) = some e →
      (association_run (α := Unit) (.ok .aborted) none (.ok ())).1 = .error e) :=
  association_release_exactly_once .aborted none (.ok ())

/-- C2 counterexample: verify returns true on the Pending status 0xFF00,
not only on Success 0x0000, because the code tests membership in the
whole success-or-pending list. -/
theorem verify_true_on_pending :
    verify (.ok .established) none 0xFF00 = .ok true ∧ (0xFF00 : Nat) ≠ 0x0000 := by
  exact ⟨rfl, by decide⟩

/-- C2 amended: verify returns true exactly when the single echo status
is in the success-or-pending set 0x0000, 0xFF00, 0xFF01 and false for
every other status; it never raises on a clean failure status (the
result is ok false), and only session-open failures raise, as
ConnectionError. -/
theorem verify_classification (echoStatus : Nat) (st : AssocState) :
    (verify (.ok .established) none echoStatus =
      .ok (decide (echoStatus ∈ status_success_or_pending))) ∧
    (echoStatus ∉ status_success_or_pending →
      verify (.ok .established) none echoStatus = .ok false) ∧
    (st ≠ .established →
      ∃ msg, verify (.ok st) none echoStatus = .error (.connectionError msg)) := by
  refine ⟨rfl, ?_, ?_⟩
  · intro h
    simp [verify, association_run, h]
  · intro hst
    cases st with
    | established => exact absurd rfl hst
    | rejected => exact ⟨"Association rejected", rfl⟩
    | aborted => exact ⟨"Received A-ABORT during association", rfl⟩
    | otherFailure => exact ⟨"Failed to establish association", rfl⟩

/-- Witness for verify_classification at the clean failure status
0xC000 with a rejected association. -/
theorem verify_classification_witness :
    (verify (.ok .established) none 0xC000 =
      .ok (decide ((0xC000 : Nat) ∈ status_success_or_pending))) ∧
    ((0xC000 : Nat) ∉ status_success_or_pending →
      verify (.ok .established) none 0xC000 = .ok false) ∧
    (AssocState.rejected ≠ .established →
      ∃ msg, verify (.ok .rejected) none 0xC000 = .error (.connectionError msg)) :=
  verify_classification 0xC000 .rejected

/-! Aggregator lemmas. -/

/-- The empty string precedes every string in the lexicographic order
(so an empty study date never wins a comparison). -/
theorem str_empty_le (s : String) : "" ≤ s := by
  rw [String.le_iff_toList_le]
  exact List.nil_le

/-- The date-update step of build_patient_result computes exactly the
maximum of the current most-recent date and the response's study date,
leaving every other attribute unchanged. -/
theorem update_most_recent_date_spec (r : PatientResult) (ds : StudyDataset) :
    update_most_recent_date r ds =
      { r with
          PatientMostRecentStudyDate :=
            max r.PatientMostRecentStudyDate (study_date_of ds) } := by
  simp only [update_most_recent_date, study_date_of]
  split_ifs with h1 h2
  · rcases h2 with h2 | h2
    · rw [h2, max_eq_right (str_empty_le _)]
    · rw [max_eq_right h2.le]
  · push_neg at h2
    rw [max_eq_left h2.2]
  · push_neg at h1
    rw [h1, max_eq_left (str_empty_le _)]

/-- append_study_id does not change the patient id. -/
theorem append_study_id_PatientID (r : PatientResult) (uid : String) :
    (append_study_id r uid).PatientID = r.PatientID := by
  unfold append_study_id
  split <;> rfl

/-- append_study_id does not change the most-recent date. -/
theorem append_study_id_date (r : PatientResult) (uid : String) :
    (append_study_id r uid).PatientMostRecentStudyDate =
      r.PatientMostRecentStudyDate := by
  unfold append_study_id
  split <;> rfl

/-- append_study_id preserves having no duplicate study ids. -/
theorem append_study_id_nodup (r : PatientResult) (uid : String)
    (h : r.PatientStudyIDs.Nodup) : (append_study_id r uid).PatientStudyIDs.Nodup := by
  unfold append_study_id
  split_ifs with h1
  · exact h
  · simpa [List.nodup_append, h1] using h

/-- build_patient_result on an already seeded result with a matching
patient id reduces to appending the study id and updating the date. -/
theorem build_patient_result_some_eq (r0 : PatientResult) (ds : StudyDataset)
    (tags : Option (List String)) (uid : String)
    (hpid : ds.PatientID = some r0.PatientID)
    (huid : ds.StudyInstanceUID = some uid) :
    build_patient_result (some r0) ds tags =
      .ok (update_most_recent_date (append_study_id r0 uid) ds) := by
  simp [build_patient_result, getattr_required, hpid, huid, bind, Except.bind, pure, Except.pure]

/-- build_patient_result on the empty result reduces to seeding and
updating the date. -/
theorem build_patient_result_none_eq (ds : StudyDataset)
    (tags : Option (List String)) (pid uid : String)
    (hpid : ds.PatientID = some pid) (huid : ds.StudyInstanceUID = some uid) :
    build_patient_result none ds tags =
      .ok (update_most_recent_date (seed_patient_result pid uid ds tags) ds) := by
  simp [build_patient_result, getattr_required, hpid, huid, bind, Except.bind, pure, Except.pure]

/-- Folding further studies of the same patient onto a seeded result
succeeds and drives the most-recent date to the running maximum of the
study dates, keeping the patient id. -/
theorem aggregate_from_some_date (tags : Option (List String)) (l : List StudyDataset) :
    ∀ r0 : PatientResult,
    (∀ ds ∈ l, ds.PatientID = some r0.PatientID) →
    (∀ ds ∈ l, ds.StudyInstanceUID.isSome) →
    ∃ r, l.foldlM (fun acc ds => (build_patient_result acc ds tags).map some) (some r0)
        = .ok (some r) ∧
      r.PatientID = r0.PatientID ∧
      r.PatientMostRecentStudyDate =
        l.foldl (fun a ds => max a (study_date_of ds)) r0.PatientMostRecentStudyDate := by
  induction l with
  | nil =>
    intro r0 _ _
    exact ⟨r0, rfl, rfl, rfl⟩
  | cons ds rest ih =>
    intro r0 hpid huid
    obtain ⟨uid, huid0⟩ := Option.isSome_iff_exists.mp (huid ds (List.mem_cons_self ds rest))
    have hpid0 := hpid ds (List.mem_cons_self ds rest)
    have hb := build_patient_result_some_eq r0 ds tags uid hpid0 huid0
    set r1 := update_most_recent_date (append_study_id r0 uid) ds with hr1
    have hr1pid : r1.PatientID = r0.PatientID := by
      rw [hr1, update_most_recent_date_spec]
      exact append_study_id_PatientID r0 uid
    have hr1date : r1.PatientMostRecentStudyDate =
        max r0.PatientMostRecentStudyDate (study_date_of ds) := by
      rw [hr1, update_most_recent_date_spec]
      simp [append_study_id_date]
    obtain ⟨r, hfold, hrpid, hrdate⟩ := ih r1
      (fun d hd => by rw [hr1pid]; exact hpid d (List.mem_cons_of_mem ds hd))
      (fun d hd => huid d (List.mem_cons_of_mem ds hd))
    refine ⟨r, ?_, by rw [hrpid, hr1pid], ?_⟩
    · rw [List.foldlM_cons]
      have : (build_patient_result (some r0) ds tags).map some = Except.ok (some r1) := by
        rw [hb]
        rfl
      rw [this]
      simpa using hfold
    · rw [hrdate, List.foldl_cons, hr1date]

/-- Every starting value is below the running maximum of study dates. -/
theorem le_foldl_max_date (l : List StudyDataset) :
    ∀ a : String, a ≤ l.foldl (fun x ds => max x (study_date_of ds)) a := by
  induction l with
  | nil => intro a; exact le_rfl
  | cons ds rest ih =>
    intro a
    exact le_trans (le_max_left a (study_date_of ds)) (ih _)

/-- Every member's study date is below the running maximum. -/
theorem mem_le_foldl_max_date (l : List StudyDataset) (ds : StudyDataset) (h : ds ∈ l) :
    ∀ a : String, study_date_of ds ≤ l.foldl (fun x d => max x (study_date_of d)) a := by
  induction l with
  | nil => cases h
  | cons b rest ih =>
    intro a
    rw [List.foldl_cons]
    rcases List.mem_cons.mp h with rfl | hmem
    · exact le_trans (le_max_right a (study_date_of ds)) (le_foldl_max_date rest _)
    · exact ih hmem _

/-- The running maximum of study dates is the starting value or the
study date of some member. -/
theorem foldl_max_date_attained (l : List StudyDataset) :
    ∀ a : String, l.foldl (fun x d => max x (study_date_of d)) a = a ∨
      ∃ ds ∈ l, l.foldl (fun x d => max x (study_date_of d)) a = study_date_of ds := by
  induction l with
  | nil => intro a; exact Or.inl rfl
  | cons b rest ih =>
    intro a
    rw [List.foldl_cons]
    rcases ih (max a (study_date_of b)) with h | ⟨ds, hds, h⟩
    · rcases max_choice a (study_date_of b) with hm | hm
      · exact Or.inl (by rw [h, hm])
      · exact Or.inr ⟨b, List.mem_cons_self b rest, by rw [h, hm]⟩
    · exact Or.inr ⟨ds, List.mem_cons_of_mem b hds, h⟩

/-- The per-patient aggregation of a nonempty well-formed study list
succeeds with its most-recent date equal to max_study_date. -/
theorem aggregate_patient_date (tags : Option (List String))
    (l : List StudyDataset) (pid : String)
    (hne : l ≠ [])
    (hpid : ∀ ds ∈ l, ds.PatientID = some pid)
    (huid : ∀ ds ∈ l, ds.StudyInstanceUID.isSome) :
    ∃ r, aggregate_patient tags l = .ok (some r) ∧
      r.PatientMostRecentStudyDate = max_study_date l := by
  cases l with
  | nil => exact absurd rfl hne
  | cons ds0 rest =>
    obtain ⟨uid, huid0⟩ :=
      Option.isSome_iff_exists.mp (huid ds0 (List.mem_cons_self ds0 rest))
    have hpid0 := hpid ds0 (List.mem_cons_self ds0 rest)
    have hb := build_patient_result_none_eq ds0 tags pid uid hpid0 huid0
    set r1 := update_most_recent_date (seed_patient_result pid uid ds0 tags) ds0 with hr1
    have hr1pid : r1.PatientID = pid := by
      rw [hr1, update_most_recent_date_spec]
      rfl
    have hr1date : r1.PatientMostRecentStudyDate = study_date_of ds0 := by
      rw [hr1, update_most_recent_date_spec]
      show max (seed_patient_result pid uid ds0 tags).PatientMostRecentStudyDate
        (study_date_of ds0) = study_date_of ds0
      have : (seed_patient_result pid uid ds0 tags).PatientMostRecentStudyDate =
          study_date_of ds0 := rfl
      rw [this, max_self]
    obtain ⟨r, hfold, hrpid, hrdate⟩ := aggregate_from_some_date tags rest r1
      (fun d hd => by rw [hr1pid]; exact hpid d (List.mem_cons_of_mem ds0 hd))
      (fun d hd => huid d (List.mem_cons_of_mem ds0 hd))
    refine ⟨r, ?_, ?_⟩
    · show (ds0 :: rest).foldlM
        (fun acc ds => (build_patient_result acc ds tags).map some) none = .ok (some r)
      rw [List.foldlM_cons]
      have : (build_patient_result none ds0 tags).map some = Except.ok (some r1) := by
        rw [hb]
        rfl
      rw [this]
      simpa using hfold
    · rw [hrdate, hr1date]
      show _ = (ds0 :: rest).foldl (fun acc ds => max acc (study_date_of ds)) ""
      rw [List.foldl_cons, max_eq_right (str_empty_le (study_date_of ds0))]

/-- C5: for one patient, folding any permutation of a set of study
records through build_patient_result succeeds, and the resulting
most-recent study date is the lexicographically greatest study date:
it bounds every study date, it is the non-empty date of some record
whenever any record has a non-empty date (so an empty date never
replaces a non-empty one), and it is invariant under permutation of the
fold order. -/
theorem build_patient_result_date_monotone (tags : Option (List String))
    (l : List StudyDataset) (pid : String)
    (hne : l ≠ [])
    (hpid : ∀ ds ∈ l, ds.PatientID = some pid)
    (huid : ∀ ds ∈ l, ds.StudyInstanceUID.isSome) :
    ∃ r, aggregate_patient tags l = .ok (some r) ∧
      r.PatientMostRecentStudyDate = max_study_date l ∧
      (∀ ds ∈ l, study_date_of ds ≤ r.PatientMostRecentStudyDate) ∧
      ((∃ ds ∈ l, study_date_of ds ≠ "") →
        ∃ ds ∈ l, study_date_of ds = r.PatientMostRecentStudyDate ∧
          r.PatientMostRecentStudyDate ≠ "") ∧
      (∀ l2, l2.Perm l →
        ∃ r2, aggregate_patient tags l2 = .ok (some r2) ∧
          r2.PatientMostRecentStudyDate = r.PatientMostRecentStudyDate) := by
  obtain ⟨r, hagg, hdate⟩ := aggregate_patient_date tags l pid hne hpid huid
  refine ⟨r, hagg, hdate, ?_, ?_, ?_⟩
  · intro ds hds
    rw [hdate]
    exact mem_le_foldl_max_date l ds hds ""
  · rintro ⟨ds0, hds0, hne0⟩
    have hlow : "" < study_date_of ds0 :=
      lt_of_le_of_ne (str_empty_le _) (Ne.symm hne0)
    have hbig : "" < r.PatientMostRecentStudyDate := by
      rw [hdate]
      exact lt_of_lt_of_le hlow (mem_le_foldl_max_date l ds0 hds0 "")
    rcases foldl_max_date_attained l "" with h | ⟨ds1, hds1, h⟩
    · exfalso
      rw [hdate] at hbig
      exact absurd h (ne_of_gt hbig)
    · exact ⟨ds1, hds1, by rw [hdate]; exact h.symm, ne_of_gt hbig⟩
  · intro l2 hperm
    have hne2 : l2 ≠ [] := by
      intro h2
      subst h2
      exact hne hperm.symm.eq_nil
    obtain ⟨r2, hagg2, hdate2⟩ := aggregate_patient_date tags l2 pid hne2
      (fun ds hds => hpid ds (hperm.subset hds))
      (fun ds hds => huid ds (hperm.subset hds))
    have hmax : max_study_date l2 = max_study_date l :=
      hperm.foldl_eq'
        (fun x _ y _ z => by
          rw [max_assoc, max_assoc, max_comm (study_date_of x) (study_date_of y)]) ""
    exact ⟨r2, hagg2, by rw [hdate2, hmax, hdate]⟩

/-- Witness for C5 at the spec's example: the dates 20180101, 20190101,
20170101 in one interleaving, ending with 20190101. -/
theorem build_patient_result_date_monotone_witness :
    ∃ r, aggregate_patient none
        [studyRec "S1" "20180101", studyRec "S2" "20190101", studyRec "S3" "20170101"]
        = .ok (some r) ∧
      r.PatientMostRecentStudyDate =
        max_study_date
          [studyRec "S1" "20180101", studyRec "S2" "20190101", studyRec "S3" "20170101"] ∧
      (∀ ds ∈ [studyRec "S1" "20180101", studyRec "S2" "20190101", studyRec "S3" "20170101"],
        study_date_of ds ≤ r.PatientMostRecentStudyDate) ∧
      ((∃ ds ∈ [studyRec "S1" "20180101", studyRec "S2" "20190101", studyRec "S3" "20170101"],
          study_date_of ds ≠ "") →
        ∃ ds ∈ [studyRec "S1" "20180101", studyRec "S2" "20190101", studyRec "S3" "20170101"],
          study_date_of ds = r.PatientMostRecentStudyDate ∧
            r.PatientMostRecentStudyDate ≠ "") ∧
      (∀ l2, l2.Perm
          [studyRec "S1" "20180101", studyRec "S2" "20190101", studyRec "S3" "20170101"] →
        ∃ r2, aggregate_patient none l2 = .ok (some r2) ∧
          r2.PatientMostRecentStudyDate = r.PatientMostRecentStudyDate) :=
  build_patient_result_date_monotone none
    [studyRec "S1" "20180101", studyRec "S2" "20190101", studyRec "S3" "20170101"]
    "PAT001" (by decide)
    (by intro ds hds; fin_cases hds <;> rfl)
    (by intro ds hds; fin_cases hds <;> rfl)

/-- The study-id list of the date update is the input's. -/
theorem update_most_recent_date_ids (r : PatientResult) (ds : StudyDataset) :
    (update_most_recent_date r ds).PatientStudyIDs = r.PatientStudyIDs := by
  rw [update_most_recent_date_spec]

/-- One build step out of any accumulator state preserves having no
duplicate study ids. -/
theorem build_patient_result_step_nodup (tags : Option (List String))
    (acc : Option PatientResult) (ds : StudyDataset) (r1 : PatientResult)
    (hb : build_patient_result acc ds tags = .ok r1)
    (hacc : ∀ r0, acc = some r0 → r0.PatientStudyIDs.Nodup) :
    r1.PatientStudyIDs.Nodup := by
  cases hpid : ds.PatientID with
  | none =>
    rw [build_patient_result] at hb
    simp [getattr_required, hpid, bind, Except.bind] at hb
  | some pid =>
    cases huid : ds.StudyInstanceUID with
    | none =>
      rw [build_patient_result] at hb
      simp [getattr_required, hpid, huid, bind, Except.bind] at hb
    | some uid =>
      cases acc with
      | none =>
        rw [build_patient_result_none_eq ds tags pid uid hpid huid] at hb
        have h1 := Except.ok.inj hb
        rw [← h1, update_most_recent_date_ids]
        exact List.nodup_singleton uid
      | some r0 =>
        by_cases hp : r0.PatientID = pid
        · rw [build_patient_result_some_eq r0 ds tags uid (by rw [hpid, hp]) huid] at hb
          have h1 := Except.ok.inj hb
          rw [← h1, update_most_recent_date_ids]
          exact append_study_id_nodup r0 uid (hacc r0 rfl)
        · rw [build_patient_result] at hb
          simp [getattr_required, hpid, huid, bind, Except.bind, hp] at hb

/-- Along the whole fold, from any accumulator with duplicate-free study
ids, a successful aggregation keeps the study ids duplicate-free. -/
theorem aggregate_nodup_go (tags : Option (List String)) (l : List StudyDataset) :
    ∀ acc : Option PatientResult,
    (∀ r0, acc = some r0 → r0.PatientStudyIDs.Nodup) →
    ∀ r, l.foldlM (fun a ds => (build_patient_result a ds tags).map some) acc
        = .ok (some r) →
    r.PatientStudyIDs.Nodup := by
  induction l with
  | nil =>
    intro acc hacc r h
    have : acc = some r := by
      simpa [pure, Except.pure] using h
    exact hacc r this
  | cons ds rest ih =>
    intro acc hacc r h
    rw [List.foldlM_cons] at h
    cases hb : build_patient_result acc ds tags with
    | error e =>
      rw [hb] at h
      simp [Except.map, bind, Except.bind] at h
    | ok r1 =>
      rw [hb] at h
      refine ih (some r1) ?_ r (by simpa [Except.map, bind, Except.bind] using h)
      rintro r0 h0
      cases h0
      exact build_patient_result_step_nodup tags acc ds r1 hb hacc

/-- C6: a successful aggregation never produces duplicate study ids,
and folding the same study record twice yields the one-element study-id
list, not a two-element one. -/
theorem build_patient_result_nodup_ids (tags : Option (List String)) :
    (∀ l r, aggregate_patient tags l = .ok (some r) → r.PatientStudyIDs.Nodup) ∧
    (∀ ds pid uid, ds.PatientID = some pid → ds.StudyInstanceUID = some uid →
      ∃ r, aggregate_patient tags [ds, ds] = .ok (some r) ∧
        r.PatientStudyIDs = [uid]) := by
  constructor
  · intro l r h
    exact aggregate_nodup_go tags l none (fun r0 h0 => by cases h0) r h
  · intro ds pid uid hpid huid
    have hb1 := build_patient_result_none_eq ds tags pid uid hpid huid
    have hr1pid :
        (update_most_recent_date (seed_patient_result pid uid ds tags) ds).PatientID
          = pid := by
      rw [update_most_recent_date_spec]
      rfl
    have hr1ids :
        (update_most_recent_date (seed_patient_result pid uid ds tags) ds).PatientStudyIDs
          = [uid] := by
      rw [update_most_recent_date_ids]
      rfl
    have hb2 := build_patient_result_some_eq
      (update_most_recent_date (seed_patient_result pid uid ds tags) ds) ds tags uid
      (by rw [hpid, hr1pid]) huid
    have happ :
        append_study_id (update_most_recent_date (seed_patient_result pid uid ds tags) ds) uid
          = update_most_recent_date (seed_patient_result pid uid ds tags) ds := by
      unfold append_study_id
      rw [if_pos (by rw [hr1ids]; exact List.mem_singleton_self uid)]
    refine ⟨update_most_recent_date
        (append_study_id (update_most_recent_date (seed_patient_result pid uid ds tags) ds) uid)
        ds, ?_, ?_⟩
    · show [ds, ds].foldlM (fun a d => (build_patient_result a d tags).map some) none = _
      rw [List.foldlM_cons]
      rw [show (build_patient_result none ds tags).map some =
        Except.ok (some (update_most_recent_date (seed_patient_result pid uid ds tags) ds)) by
          rw [hb1]; rfl]
      show [ds].foldlM (fun a d => (build_patient_result a d tags).map some)
        (some (update_most_recent_date (seed_patient_result pid uid ds tags) ds)) = _
      rw [List.foldlM_cons]
      rw [show (build_patient_result
          (some (update_most_recent_date (seed_patient_result pid uid ds tags) ds)) ds tags).map
            some =
        Except.ok (some (update_most_recent_date
          (append_study_id (update_most_recent_date (seed_patient_result pid uid ds tags) ds)
            uid) ds)) by
          rw [hb2]; rfl]
      rfl
    · rw [update_most_recent_date_ids, happ, hr1ids]

/-- Witness for C6: the same concrete study folded twice ends with the
one-element study-id list, which is duplicate-free. -/
theorem build_patient_result_nodup_ids_witness :
    ∃ r, aggregate_patient none [studyRec "S1" "20180101", studyRec "S1" "20180101"]
        = .ok (some r) ∧ r.PatientStudyIDs = ["S1"] ∧ r.PatientStudyIDs.Nodup := by
  obtain ⟨r, hagg, hids⟩ :=
    (build_patient_result_nodup_ids none).2 (studyRec "S1" "20180101") "PAT001" "S1" rfl rfl
  exact ⟨r, hagg, hids, (build_patient_result_nodup_ids none).1 _ r hagg⟩

/-! Thumbnail selection. -/

/-- The filesystem client's sort of the matching datasets is sorted by
image id. -/
theorem fs_mergeSort_sorted (l : List FsDataset) :
    (l.mergeSort (fun a b => decide (a.SOPInstanceUID ≤ b.SOPInstanceUID))).Pairwise
      (fun a b => a.SOPInstanceUID ≤ b.SOPInstanceUID) := by
  have h : List.Pairwise
      (fun a b : FsDataset => (decide (a.SOPInstanceUID ≤ b.SOPInstanceUID)) = true)
      (l.mergeSort (fun a b => decide (a.SOPInstanceUID ≤ b.SOPInstanceUID))) :=
    List.sorted_mergeSort
      (fun a b c h1 h2 => by
        simp only [decide_eq_true_eq] at h1 h2 ⊢
        exact le_trans h1 h2)
      (fun a b => by simpa using le_total a.SOPInstanceUID b.SOPInstanceUID)
      l
  exact h.imp (fun hab => by simpa using hab)

/-- Two id-sorted dataset lists that are permutations of each other
with pairwise-distinct image ids are equal. -/
theorem sorted_perm_nodup_eq :
    ∀ l1 l2 : List FsDataset, l1.Perm l2 →
    l1.Pairwise (fun a b => a.SOPInstanceUID ≤ b.SOPInstanceUID) →
    l2.Pairwise (fun a b => a.SOPInstanceUID ≤ b.SOPInstanceUID) →
    (l1.map FsDataset.SOPInstanceUID).Nodup →
    l1 = l2 := by
  intro l1
  induction l1 with
  | nil =>
    intro l2 hp _ _ _
    exact (hp.symm.eq_nil).symm
  | cons a t1 ih =>
    intro l2 hp hs1 hs2 hnd
    cases l2 with
    | nil => exact absurd hp.eq_nil (by simp)
    | cons b t2 =>
      have hab : a = b := by
        by_contra hne
        have ha2 : a ∈ b :: t2 := hp.subset (List.mem_cons_self a t1)
        have hb1 : b ∈ a :: t1 := hp.symm.subset (List.mem_cons_self b t2)
        have hb1t : b ∈ t1 := by
          rcases List.mem_cons.mp hb1 with h | h
          · exact absurd h.symm hne
          · exact h
        have ha2t : a ∈ t2 := by
          rcases List.mem_cons.mp ha2 with h | h
          · exact absurd h hne
          · exact h
        have h1 : a.SOPInstanceUID ≤ b.SOPInstanceUID :=
          (List.pairwise_cons.mp hs1).1 b hb1t
        have h2 : b.SOPInstanceUID ≤ a.SOPInstanceUID :=
          (List.pairwise_cons.mp hs2).1 a ha2t
        have heq : a.SOPInstanceUID = b.SOPInstanceUID := le_antisymm h1 h2
        have hnotin : a.SOPInstanceUID ∉ t1.map FsDataset.SOPInstanceUID :=
          (List.nodup_cons.mp (by simpa using hnd)).1
        exact hnotin (by rw [heq]; exact List.mem_map_of_mem _ hb1t)
      subst hab
      have ht := ih t2 hp.cons_inv (List.pairwise_cons.mp hs1).2
        (List.pairwise_cons.mp hs2).2
        (List.nodup_cons.mp (by simpa using hnd)).2
      rw [ht]

/-- C7 counterexample: with an all-Pending stream whose image ids
arrive as B then A, the pynetdicom fetch_thumbnail picks A, the
midpoint of the arrival-order id list, while the midpoint of the
id-sorted list is B: the code does not sort the id list it indexes. -/
theorem fetch_thumbnail_not_sorted :
    fetch_thumbnail_selection [((0xFF00 : Nat), imageRec "B"), (0xFF00, imageRec "A")]
      = .ok (some "A") ∧
    spec_sorted_midpoint ["B", "A"] = some "B" ∧
    some ("A" : String) ≠ some "B" := by
  refine ⟨rfl, ?_, by decide⟩
  have hBA : ¬ (("B" : String) ≤ "A") := by
    rw [String.le_iff_toList_le]
    decide
  simp [spec_sorted_midpoint, List.insertionSort, List.orderedInsert, hBA]

/-- C7 amended: with no image ids the result is the absence marker;
otherwise the pynetdicom client retrieves the id at index
floor(count/2) of the image-id list in arrival order (it does not sort
the list), while the filesystem client sorts the matching datasets by
image id before taking the midpoint, so its choice is invariant under
permutation of its stored datasets whenever the matching image ids are
pairwise distinct. -/
theorem fetch_thumbnail_selection_spec (responses : List (Nat × ImageDataset))
    (hall : ∀ p ∈ responses, p.1 ∈ status_success_or_pending)
    (datasets1 datasets2 : List FsDataset) (series_id : String)
    (hperm : datasets1.Perm datasets2)
    (hnodup : ((datasets1.filter (fun t => t.SeriesInstanceUID == series_id)).map
        FsDataset.SOPInstanceUID).Nodup) :
    fetch_thumbnail_selection responses =
      .ok (let image_ids := (responses.map Prod.snd).filterMap (fun ds => ds.SOPInstanceUID)
           if image_ids.isEmpty then none
           else some (image_ids.getD (image_ids.length / 2) "")) ∧
    fs_fetch_thumbnail_selection datasets1 series_id =
      fs_fetch_thumbnail_selection datasets2 series_id := by
  constructor
  · have h := checked_responses_all_good responses hall
    rw [fetch_thumbnail_selection, h]
    rw [apply_ite Except.ok]
  · have hpf := hperm.filter (fun t => t.SeriesInstanceUID == series_id)
    have hsorteq :
        (datasets1.filter (fun t => t.SeriesInstanceUID == series_id)).mergeSort
            (fun a b => decide (a.SOPInstanceUID ≤ b.SOPInstanceUID)) =
        (datasets2.filter (fun t => t.SeriesInstanceUID == series_id)).mergeSort
            (fun a b => decide (a.SOPInstanceUID ≤ b.SOPInstanceUID)) := by
      apply sorted_perm_nodup_eq
      · exact (List.mergeSort_perm _ _).trans (hpf.trans (List.mergeSort_perm _ _).symm)
      · exact fs_mergeSort_sorted _
      · exact fs_mergeSort_sorted _
      · exact (((List.mergeSort_perm _ _).map FsDataset.SOPInstanceUID).nodup_iff).mpr hnodup
    have hemp : (datasets1.filter (fun t => t.SeriesInstanceUID == series_id)).isEmpty =
        (datasets2.filter (fun t => t.SeriesInstanceUID == series_id)).isEmpty := by
      cases h1 : datasets1.filter (fun t => t.SeriesInstanceUID == series_id) with
      | nil =>
        rw [h1] at hpf
        rw [hpf.symm.eq_nil]
      | cons x xs =>
        rw [h1] at hpf
        cases h2 : datasets2.filter (fun t => t.SeriesInstanceUID == series_id) with
        | nil =>
          rw [h2] at hpf
          exact absurd hpf.eq_nil (by simp)
        | cons y ys => rfl
    rw [fs_fetch_thumbnail_selection, fs_fetch_thumbnail_selection, hemp, hsorteq]

/-- Witness for the amended C7: one Pending response, and two stores of
the same two datasets in either order. -/
theorem fetch_thumbnail_selection_spec_witness :
    fetch_thumbnail_selection [((0xFF00 : Nat), imageRec "A")] =
      .ok (let image_ids := (([((0xFF00 : Nat), imageRec "A")]).map
              Prod.snd).filterMap (fun ds => ds.SOPInstanceUID)
           if image_ids.isEmpty then none
           else some (image_ids.getD (image_ids.length / 2) "")) ∧
    fs_fetch_thumbnail_selection
        [⟨"p1", "s", "A"⟩, ⟨"p2", "s", "B"⟩] "s" =
      fs_fetch_thumbnail_selection
        [⟨"p2", "s", "B"⟩, ⟨"p1", "s", "A"⟩] "s" :=
  fetch_thumbnail_selection_spec [((0xFF00 : Nat), imageRec "A")] (by decide)
    [⟨"p1", "s", "A"⟩, ⟨"p2", "s", "B"⟩] [⟨"p2", "s", "B"⟩, ⟨"p1", "s", "A"⟩] "s"
    (by decide) (by decide)

/-! series_for_study filtering. -/

/-- With the archive-announced count present, determining the image
count succeeds; when the announced count is blank the fallback
image-level count also succeeds on an all-good response stream. -/
theorem determine_number_ok (s : SeriesDataset) (resp : List (Nat × ImageDataset))
    (hn : s.NumberOfSeriesRelatedInstances.isSome)
    (hresp : ∀ q ∈ resp, q.1 ∈ status_success_or_pending) :
    ∃ n, determine_number_of_images s resp = .ok n := by
  obtain ⟨v, hv⟩ := Option.isSome_iff_exists.mp hn
  have h := checked_responses_all_good resp hresp
  by_cases hve : v = ""
  · refine ⟨toString ((resp.map Prod.snd).countP (fun i => i.SOPInstanceUID.isSome)), ?_⟩
    simp [determine_number_of_images, hv, hve, count_images_via_query, h]
  · exact ⟨v, by simp [determine_number_of_images, hv, hve]⟩

/-- With the directly accessed attributes present, building the kept
series record succeeds and keeps the series id. -/
theorem build_series_result_ok (s : SeriesDataset) (tags : List String) (number : String)
    (hm : s.Modality.isSome) (hd : s.SeriesDate.isSome) (ht : s.SeriesTime.isSome)
    (huid : s.SeriesInstanceUID.isSome) :
    ∃ ds, build_series_result s tags number = .ok ds ∧
      ds.SeriesInstanceUID = s.SeriesInstanceUID := by
  obtain ⟨uid, h1⟩ := Option.isSome_iff_exists.mp huid
  obtain ⟨m, h2⟩ := Option.isSome_iff_exists.mp hm
  obtain ⟨d, h3⟩ := Option.isSome_iff_exists.mp hd
  obtain ⟨t, h4⟩ := Option.isSome_iff_exists.mp ht
  refine ⟨{ SeriesInstanceUID := some uid
            SeriesDescription := some (s.SeriesDescription.getD "")
            BodyPartExamined := s.BodyPartExamined
            Modality := some m
            SeriesDate := some d
            SeriesTime := some t
            PatientPosition := none
            NumberOfSeriesRelatedInstances := some number
            extra := copy_dicom_attributes [] s.extra (some tags) }, ?_, ?_⟩
  · simp [build_series_result, h1, h2, h3, h4]
  · rw [h1]

/-- The series_for_study fold keeps, in order, exactly the responses
passing the keep test, each contributing its series id. -/
theorem series_fold_go (modality_filter : Option (List String))
    (additional_tags : List String)
    (secondary : SeriesDataset → List (Nat × ImageDataset))
    (sl : List SeriesDataset) :
    ∀ acc : List SeriesDataset,
    (∀ s ∈ sl, s.SeriesInstanceUID.isSome) →
    (∀ s ∈ sl, s.Modality.isSome ∧ s.SeriesDate.isSome ∧ s.SeriesTime.isSome ∧
      s.NumberOfSeriesRelatedInstances.isSome) →
    (∀ s ∈ sl, ∀ q ∈ secondary s, q.1 ∈ status_success_or_pending) →
    ∃ l, sl.foldlM
        (fun acc series =>
          if series_keep modality_filter series then do
            let number ← determine_number_of_images series (secondary series)
            let ds ← build_series_result series additional_tags number
            pure (acc ++ [ds])
          else
            pure acc)
        acc = .ok l ∧
      l.map (fun ds => ds.SeriesInstanceUID) =
        acc.map (fun ds => ds.SeriesInstanceUID) ++
          (sl.filter (series_keep modality_filter)).map
            (fun ds => ds.SeriesInstanceUID) := by
  induction sl with
  | nil =>
    intro acc _ _ _
    exact ⟨acc, rfl, by simp⟩
  | cons s rest ih =>
    intro acc hvalid hfields hsec
    have hvr : ∀ x ∈ rest, x.SeriesInstanceUID.isSome :=
      fun x hx => hvalid x (List.mem_cons_of_mem s hx)
    have hfr : ∀ x ∈ rest, x.Modality.isSome ∧ x.SeriesDate.isSome ∧
        x.SeriesTime.isSome ∧ x.NumberOfSeriesRelatedInstances.isSome :=
      fun x hx => hfields x (List.mem_cons_of_mem s hx)
    have hsr : ∀ x ∈ rest, ∀ q ∈ secondary x, q.1 ∈ status_success_or_pending :=
      fun x hx => hsec x (List.mem_cons_of_mem s hx)
    by_cases hk : series_keep modality_filter s
    · obtain ⟨hm, hd, ht, hn⟩ := hfields s (List.mem_cons_self s rest)
      obtain ⟨number, hnum⟩ :=
        determine_number_ok s (secondary s) hn (hsec s (List.mem_cons_self s rest))
      obtain ⟨ds, hds, hdsuid⟩ := build_series_result_ok s additional_tags number
        hm hd ht (hvalid s (List.mem_cons_self s rest))
      obtain ⟨l, hfold, hmap⟩ := ih (acc ++ [ds]) hvr hfr hsr
      refine ⟨l, ?_, ?_⟩
      · rw [List.foldlM_cons]
        have hstep :
            (if series_keep modality_filter s then do
              let number ← determine_number_of_images s (secondary s)
              let ds ← build_series_result s additional_tags number
              pure (acc ++ [ds])
            else
              pure acc) = Except.ok (acc ++ [ds]) := by
          rw [if_pos hk, hnum]
          simp [hds, bind, Except.bind, pure, Except.pure]
        rw [hstep]
        simpa using hfold
      · rw [hmap, List.filter_cons_of_pos hk]
        simp [hdsuid]
    · obtain ⟨l, hfold, hmap⟩ := ih acc hvr hfr hsr
      refine ⟨l, ?_, ?_⟩
      · rw [List.foldlM_cons]
        have hstep :
            (if series_keep modality_filter s then do
              let number ← determine_number_of_images s (secondary s)
              let ds ← build_series_result s additional_tags number
              pure (acc ++ [ds])
            else
              pure acc) = Except.ok acc := by
          rw [if_neg hk]
          rfl
        rw [hstep]
        simpa using hfold
      · rw [hmap, List.filter_cons_of_neg hk]

/-- C8: on an all-good response stream of valid series records,
series_for_study succeeds and keeps exactly the responses whose
modality passes the filter, in order, one result record per kept
response; with no filter every response is kept. -/
theorem series_for_study_filter_spec (modality_filter : Option (List String))
    (additional_tags : List String)
    (secondary : SeriesDataset → List (Nat × ImageDataset))
    (responses : List (Nat × SeriesDataset))
    (hall : ∀ p ∈ responses, p.1 ∈ status_success_or_pending)
    (hvalid : ∀ p ∈ responses, p.2.SeriesInstanceUID.isSome)
    (hfields : ∀ p ∈ responses, p.2.Modality.isSome ∧ p.2.SeriesDate.isSome ∧
      p.2.SeriesTime.isSome ∧ p.2.NumberOfSeriesRelatedInstances.isSome)
    (hsec : ∀ p ∈ responses, ∀ q ∈ secondary p.2, q.1 ∈ status_success_or_pending) :
    ∃ l, series_for_study_results modality_filter additional_tags secondary responses
        = .ok l ∧
      l.map (fun ds => ds.SeriesInstanceUID) =
        ((responses.map Prod.snd).filter (series_keep modality_filter)).map
          (fun ds => ds.SeriesInstanceUID) ∧
      (modality_filter = none → l.length = responses.length) := by
  have h := checked_responses_all_good responses hall
  have hmem : ∀ s ∈ responses.map Prod.snd, ∃ p ∈ responses, p.2 = s := by
    intro s hs
    obtain ⟨p, hp, hps⟩ := List.mem_map.mp hs
    exact ⟨p, hp, hps⟩
  obtain ⟨l, hfold, hmap⟩ := series_fold_go modality_filter additional_tags secondary
    (responses.map Prod.snd) []
    (by intro s hs; obtain ⟨p, hp, rfl⟩ := hmem s hs; exact hvalid p hp)
    (by intro s hs; obtain ⟨p, hp, rfl⟩ := hmem s hs; exact hfields p hp)
    (by intro s hs; obtain ⟨p, hp, rfl⟩ := hmem s hs; exact hsec p hp)
  refine ⟨l, ?_, ?_, ?_⟩
  · rw [series_for_study_results, h]
    exact hfold
  · simpa using hmap
  · intro hnone
    subst hnone
    have hkeep : ∀ s ∈ responses.map Prod.snd, series_keep none s = true := by
      intro s hs
      obtain ⟨p, hp, rfl⟩ := hmem s hs
      simp [series_keep, hvalid p hp]
    have : (responses.map Prod.snd).filter (series_keep none) = responses.map Prod.snd :=
      List.filter_eq_self.mpr hkeep
    have hlen : l.length = ((responses.map Prod.snd).filter (series_keep none)).length := by
      have := congrArg List.length hmap
      simpa using this
    rw [hlen, this, List.length_map]

/-- Witness for C8 at the spec's scenario: modality filter CT against
series of modalities CT, MR, CT returns exactly two records. -/
theorem series_for_study_filter_spec_witness :
    ∃ l, series_for_study_results (some ["CT"]) [] (fun _ => [])
        [((0 : Nat), seriesRec "S1" "CT"), (0, seriesRec "S2" "MR"),
         (0, seriesRec "S3" "CT")] = .ok l ∧
      l.map (fun ds => ds.SeriesInstanceUID) = [some "S1", some "S3"] ∧
      l.length = 2 := by
  obtain ⟨l, hok, hmap, _⟩ := series_for_study_filter_spec (some ["CT"]) [] (fun _ => [])
    [((0 : Nat), seriesRec "S1" "CT"), (0, seriesRec "S2" "MR"), (0, seriesRec "S3" "CT")]
    (by decide) (by decide) (by decide) (by decide)
  have hm2 : l.map (fun ds => ds.SeriesInstanceUID) = [some "S1", some "S3"] := by
    rw [hmap]
    rfl
  refine ⟨l, hok, hm2, ?_⟩
  have := congrArg List.length hm2
  simpa using this

/-! search_series argument mutations. -/

/-- C9 counterexample: with a caller-supplied empty additional_tags
list, the falsy-or expression rebinds the local name to a fresh list,
so the caller's list is not extended in place: it is unchanged after
the call, and the two caller objects do not both differ. -/
theorem search_series_empty_tags_unchanged :
    (search_series_mutations [] (some [])).2 = some [] := rfl

/-- C9 amended: search_series always mutates the caller's query
dataset, setting QueryRetrieveLevel to INSTANCE and defining (blank
when previously undefined) every series-level tag of the effective tag
list; the caller's additional_tags list is extended in place by the six
series-level tag names exactly when the caller passed a non-empty
list, and is left unchanged when the caller passed None or an empty
list. -/
theorem search_series_mutations_spec (query_dataset : List (String × String))
    (additional_tags : Option (List String)) :
    ("QueryRetrieveLevel", "INSTANCE") ∈
      (search_series_mutations query_dataset additional_tags).1 ∧
    (∀ t ∈ series_level_tags, ∃ v,
      (t, v) ∈ (search_series_mutations query_dataset additional_tags).1) ∧
    (∀ l, additional_tags = some l → l ≠ [] →
      (search_series_mutations query_dataset additional_tags).2 =
        some (l ++ series_level_tags)) ∧
    (additional_tags = none ∨ additional_tags = some [] →
      (search_series_mutations query_dataset additional_tags).2 = additional_tags) := by
  refine ⟨?_, ?_, ?_, ?_⟩
  · show ("QueryRetrieveLevel", "INSTANCE") ∈
      set_undefined_tags_to_blank (set_attr query_dataset "QueryRetrieveLevel" "INSTANCE") _
    apply List.mem_append_left
    apply List.mem_append_right
    exact List.mem_singleton_self _
  · intro t ht
    show ∃ v, (t, v) ∈
      set_undefined_tags_to_blank (set_attr query_dataset "QueryRetrieveLevel" "INSTANCE") _
    by_cases hall : (set_attr query_dataset "QueryRetrieveLevel" "INSTANCE").all
        (fun p => p.1 != t)
    · refine ⟨"", List.mem_append_right _ ?_⟩
      apply List.mem_map_of_mem
      exact List.mem_filter_of_mem (List.mem_append_right _ ht) hall
    · rw [List.all_eq_true] at hall
      push_neg at hall
      obtain ⟨p, hp, hpt⟩ := hall
      have hp1 : p.1 = t := by
        have := Bool.not_eq_true (p.1 != t) |>.mp hpt
        simpa using this
      refine ⟨p.2, List.mem_append_left _ ?_⟩
      have hpair : (t, p.2) = p := by
        rw [← hp1]
      rw [hpair]
      exact hp
  · intro l hsome hl
    subst hsome
    simp [search_series_mutations, List.isEmpty_iff, hl]
  · rintro (rfl | rfl) <;> rfl

/-- Witness for the amended C9 at a non-empty caller list. -/
theorem search_series_mutations_spec_witness :
    ("QueryRetrieveLevel", "INSTANCE") ∈
      (search_series_mutations [("PatientID", "X")] (some ["StationName"])).1 ∧
    (∀ t ∈ series_level_tags, ∃ v,
      (t, v) ∈ (search_series_mutations [("PatientID", "X")] (some ["StationName"])).1) ∧
    (∀ l, (some ["StationName"] : Option (List String)) = some l → l ≠ [] →
      (search_series_mutations [("PatientID", "X")] (some ["StationName"])).2 =
        some (l ++ series_level_tags)) ∧
    ((some ["StationName"] : Option (List String)) = none ∨
        (some ["StationName"] : Option (List String)) = some [] →
      (search_series_mutations [("PatientID", "X")] (some ["StationName"])).2 =
        some ["StationName"]) :=
  search_series_mutations_spec [("PatientID", "X")] (some ["StationName"])

/-! images_for_series and max_count. -/

/-- The collecting loop treats max_count 0 exactly as None on every
response stream, from every accumulator: 0 is falsy, so the break test
never fires in either case. -/
theorem images_loop_zero_eq_none (tags : Option (List String)) :
    ∀ (responses : List (Nat × ImageDataset)) (acc : List ImageDataset),
    images_for_series_loop (some 0) tags acc responses =
      images_for_series_loop none tags acc responses := by
  intro responses
  induction responses with
  | nil => intro acc; rfl
  | cons p rest ih =>
    intro acc
    obtain ⟨status, inst⟩ := p
    by_cases hst : status ∈ status_success_or_pending
    · simp only [images_for_series_loop, if_pos hst]
      cases inst.SOPInstanceUID with
      | none => exact ih acc
      | some iid =>
        cases inst.SeriesInstanceUID with
        | none => rfl
        | some sid =>
          simp only [max_count_truthy]
          rw [if_neg (by simp), if_neg (by simp)]
          exact ih _
    · simp only [images_for_series_loop, if_neg hst]

/-- From an accumulator shorter than the limit, a successful run of the
collecting loop with a positive limit returns at most limit images. -/
theorem images_loop_length_le (tags : Option (List String)) (n : Nat) :
    ∀ (responses : List (Nat × ImageDataset)) (acc : List ImageDataset),
    acc.length < n →
    ∀ l, images_for_series_loop (some n) tags acc responses = .ok l →
    l.length ≤ n := by
  intro responses
  induction responses with
  | nil =>
    intro acc hacc l h
    have hax : acc = l := by
      rw [show images_for_series_loop (some n) tags acc [] = Except.ok acc from rfl] at h
      exact Except.ok.inj h
    rw [← hax]
    exact le_of_lt hacc
  | cons p rest ih =>
    intro acc hacc l h
    obtain ⟨status, inst⟩ := p
    by_cases hst : status ∈ status_success_or_pending
    · rw [show images_for_series_loop (some n) tags acc ((status, inst) :: rest) =
          (if status ∈ status_success_or_pending then
            match inst.SOPInstanceUID with
            | none => images_for_series_loop (some n) tags acc rest
            | some iid =>
              match inst.SeriesInstanceUID with
              | none => .error (.attributeError "SeriesInstanceUID")
              | some sid =>
                let ds : ImageDataset :=
                  { SeriesInstanceUID := some sid
                    SOPInstanceUID := some iid
                    extra := copy_dicom_attributes [] inst.extra tags }
                let acc2 := acc ++ [ds]
                if max_count_truthy (some n) ∧ acc2.length ≥ (some n : Option Nat).getD 0 then
                  .ok acc2
                else
                  images_for_series_loop (some n) tags acc2 rest
          else
            .error (.protocolFailure status)) from rfl, if_pos hst] at h
      cases hio : inst.SOPInstanceUID with
      | none =>
        rw [hio] at h
        exact ih acc hacc l h
      | some iid =>
        rw [hio] at h
        cases his : inst.SeriesInstanceUID with
        | none =>
          rw [his] at h
          cases h
        | some sid =>
          rw [his] at h
          simp only at h
          by_cases hbreak : max_count_truthy (some n) ∧
              (acc ++ [({ SeriesInstanceUID := some sid
                          SOPInstanceUID := some iid
                          extra := copy_dicom_attributes [] inst.extra tags } :
                ImageDataset)]).length ≥ n
          · rw [if_pos (by simpa using hbreak)] at h
            have hl : acc ++ [({ SeriesInstanceUID := some sid
                                 SOPInstanceUID := some iid
                                 extra := copy_dicom_attributes [] inst.extra tags } :
                ImageDataset)] = l := by
              simpa using h
            rw [← hl]
            simp only [List.length_append, List.length_singleton]
            omega
          · rw [if_neg (by simpa using hbreak)] at h
            by_cases hlt : (acc ++ [({ SeriesInstanceUID := some sid
                                       SOPInstanceUID := some iid
                                       extra := copy_dicom_attributes [] inst.extra tags } :
                ImageDataset)]).length < n
            · exact ih _ hlt l h
            · exfalso
              apply hbreak
              refine ⟨by simp [max_count_truthy]; omega, ?_⟩
              omega
    · rw [show images_for_series_loop (some n) tags acc ((status, inst) :: rest) =
          (if status ∈ status_success_or_pending then
            match inst.SOPInstanceUID with
            | none => images_for_series_loop (some n) tags acc rest
            | some iid =>
              match inst.SeriesInstanceUID with
              | none => .error (.attributeError "SeriesInstanceUID")
              | some sid =>
                let ds : ImageDataset :=
                  { SeriesInstanceUID := some sid
                    SOPInstanceUID := some iid
                    extra := copy_dicom_attributes [] inst.extra tags }
                let acc2 := acc ++ [ds]
                if max_count_truthy (some n) ∧ acc2.length ≥ (some n : Option Nat).getD 0 then
                  .ok acc2
                else
                  images_for_series_loop (some n) tags acc2 rest
          else
            .error (.protocolFailure status)) from rfl, if_neg hst] at h
      cases h

/-- C10: images_for_series treats max_count 0 exactly as None (no
limit: the two runs agree on every response stream, errors included),
and for every limit n of at least one, a successful run returns at most
n images. -/
theorem images_for_series_max_count_spec (tags : Option (List String)) :
    (∀ responses, images_for_series_run (some 0) tags responses =
      images_for_series_run none tags responses) ∧
    (∀ n : Nat, 1 ≤ n → ∀ responses l,
      images_for_series_run (some n) tags responses = .ok l → l.length ≤ n) := by
  constructor
  · intro responses
    exact images_loop_zero_eq_none tags responses []
  · intro n hn responses l h
    exact images_loop_length_le tags n responses [] (by simpa using hn) l h

/-- Witness for C10: a two-image stream, with limit 0 agreeing with no
limit, and limit 1 returning one image. -/
theorem images_for_series_max_count_spec_witness :
    images_for_series_run (some 0) none
        [((0 : Nat), imageRecFull "s" "i1"), (0, imageRecFull "s" "i2")] =
      images_for_series_run none none
        [((0 : Nat), imageRecFull "s" "i1"), (0, imageRecFull "s" "i2")] ∧
    ([({ SeriesInstanceUID := some "s", SOPInstanceUID := some "i1",
         extra := [] } : ImageDataset)]).length ≤ 1 :=
  ⟨(images_for_series_max_count_spec none).1
      [((0 : Nat), imageRecFull "s" "i1"), (0, imageRecFull "s" "i2")],
   (images_for_series_max_count_spec none).2 1 (by decide)
      [((0 : Nat), imageRecFull "s" "i1"), (0, imageRecFull "s" "i2")]
      [({ SeriesInstanceUID := some "s", SOPInstanceUID := some "i1",
          extra := [] } : ImageDataset)] rfl⟩

end Pacsman
